import Mathlib

/-!
Verification of the Cost Manager ledger and reporting engine.

The development shallowly embeds the JavaScript IndexedDB wrapper
(`idb.js` / `helperFunctions.js`): JavaScript numbers become an extended
rational type (`JsNum`), parsed JSON payloads become the `Json` inductive,
the IndexedDB `costs` store becomes a list of key/record pairs, and the
network transport becomes an explicit `Env` parameter.  Every definition is
translated from the repository's source; floating-point rounding of finite
arithmetic is abstracted by exact rationals.
-/

namespace CostManager

/-- JavaScript numbers: finite values are modelled exactly as rationals;
`NaN` and the two infinities are explicit constructors.  (Negative zero is
identified with zero, and finite float rounding is abstracted away.) -/
inductive JsNum where
  | fin (q : ℚ)
  | posInf
  | negInf
  | nan
deriving DecidableEq, Repr

/-- JavaScript addition (`a + b` on numbers). -/
def jsAdd : JsNum → JsNum → JsNum
  | .nan, _ => .nan
  | _, .nan => .nan
  | .fin a, .fin b => .fin (a + b)
  | .posInf, .negInf => .nan
  | .negInf, .posInf => .nan
  | .posInf, _ => .posInf
  | .negInf, _ => .negInf
  | .fin _, .posInf => .posInf
  | .fin _, .negInf => .negInf

/-- JavaScript multiplication (`a * b` on numbers). -/
def jsMul : JsNum → JsNum → JsNum
  | .nan, _ => .nan
  | _, .nan => .nan
  | .fin a, .fin b => .fin (a * b)
  | .posInf, .posInf => .posInf
  | .posInf, .negInf => .negInf
  | .negInf, .posInf => .negInf
  | .negInf, .negInf => .posInf
  | .posInf, .fin b => if b = 0 then .nan else if 0 < b then .posInf else .negInf
  | .negInf, .fin b => if b = 0 then .nan else if 0 < b then .negInf else .posInf
  | .fin a, .posInf => if a = 0 then .nan else if 0 < a then .posInf else .negInf
  | .fin a, .negInf => if a = 0 then .nan else if 0 < a then .negInf else .posInf

/-- JavaScript division (`a / b` on numbers).  Division of a nonzero finite
value by zero yields an infinity (zero is treated as `+0`; `-0` is not
modelled), and `0 / 0` yields `NaN`. -/
def jsDiv : JsNum → JsNum → JsNum
  | .nan, _ => .nan
  | _, .nan => .nan
  | .fin a, .fin b =>
      if b = 0 then (if a = 0 then .nan else if 0 < a then .posInf else .negInf)
      else .fin (a / b)
  | .posInf, .posInf => .nan
  | .posInf, .negInf => .nan
  | .negInf, .posInf => .nan
  | .negInf, .negInf => .nan
  | .posInf, .fin b => if 0 ≤ b then .posInf else .negInf
  | .negInf, .fin b => if 0 ≤ b then .negInf else .posInf
  | .fin _, .posInf => .fin 0
  | .fin _, .negInf => .fin 0

/-- JavaScript `Math.round`: half-up (towards `+∞`) on finite values,
identity on infinities, `NaN` on `NaN`. -/
def jsRound : JsNum → JsNum
  | .fin q => .fin ((⌊q + 1/2⌋ : ℤ) : ℚ)
  | x => x

/-- The two-decimal rounding idiom `Math.round(x * 100) / 100` used by every
report builder. -/
def jsRound2 (x : JsNum) : JsNum := jsDiv (jsRound (jsMul x (.fin 100))) (.fin 100)

/-- An arbitrary JavaScript value as far as `convertCurrency` inspects its
`amount` argument: `some n` is a value of `typeof === 'number'`, `none` is
any value of a different type. -/
abbrev JsVal := Option JsNum

/-- Extracts the number from a `JsVal` known to be numeric.  (The `NaN`
default is never taken where this is used: `convertCurrency` always returns
a number, see `convertCurrency_isSome`.) -/
def jsValNum (v : JsVal) : JsNum := v.getD JsNum.nan

/-- A parsed JSON payload, as produced by `response.json()`. -/
inductive Json where
  | num (q : ℚ)
  | str (s : String)
  | bool (b : Bool)
  | null
  | arr (elems : List Json)
  | obj (fields : List (String × Json))

/-- First-match association-list lookup: JavaScript property access
`o[key]`, `none` standing for `undefined`. -/
def lookupField : List (String × Json) → String → Option Json
  | [], _ => none
  | (k, v) :: rest, key => if k = key then some v else lookupField rest key

/-- JavaScript `typeof` for parsed JSON values (`typeof null` is
`"object"`, and arrays are objects). -/
def jsTypeof : Json → String
  | .num _ => "number"
  | .str _ => "string"
  | .bool _ => "boolean"
  | .null => "object"
  | .arr _ => "object"
  | .obj _ => "object"

/-- JavaScript falsiness of a parsed JSON value (`!rates`). -/
def jsFalsy : Json → Bool
  | .num q => q = 0
  | .str s => s = ""
  | .bool b => !b
  | .null => true
  | .arr _ => false
  | .obj _ => false

/-- The object spread `{...rates}`: an object's own enumerable properties.
For an array these are its index properties, for a string its character
index properties, and for the remaining primitives the spread is empty. -/
def jsonSpread : Json → List (String × Json)
  | .obj fields => fields
  | .arr elems => elems.enum.map (fun p => (toString p.fst, p.snd))
  | .str s => s.data.enum.map (fun p => (toString p.fst, Json.str (String.mk [p.snd])))
  | _ => []

/-- Property access on a parsed JSON value by a non-index string key (the
currency codes used by the application are never array indices). -/
def jsonLookup (j : Json) (key : String) : Option Json :=
  match j with
  | .obj fields => lookupField fields key
  | _ => none

/-- JavaScript whitespace accepted by string-to-number coercion. -/
def jsWhitespace (c : Char) : Bool :=
  c = ' ' || c = '\t' || c = '\n' || c = '\r' || c = '\x0b' || c = '\x0c' || c = ' '

/-- Value of a base-10 digit list. -/
def natOfDigits (cs : List Char) : Nat :=
  cs.foldl (fun a c => a * 10 + (c.toNat - 48)) 0

/-- Digit value for radix literals (hexadecimal digits and below);
a sentinel `16` marks a non-digit. -/
def radixDigitVal (c : Char) : Nat :=
  if '0' ≤ c ∧ c ≤ '9' then c.toNat - 48
  else if 'a' ≤ c ∧ c ≤ 'f' then c.toNat - 87
  else if 'A' ≤ c ∧ c ≤ 'F' then c.toNat - 55
  else 16

/-- Whether a character is a digit of the given radix. -/
def isRadixDigit (radix : Nat) (c : Char) : Bool := radixDigitVal c < radix

/-- Value of a digit list in the given radix. -/
def natOfRadix (radix : Nat) (cs : List Char) : Nat :=
  cs.foldl (fun a c => a * radix + radixDigitVal c) 0

/-- Parses an unsigned decimal literal (digits, optional fraction, optional
exponent), the body of JavaScript string-to-number coercion. -/
def parseDecimal (cs : List Char) : Option ℚ :=
  let intPart := cs.takeWhile Char.isDigit
  let rest1 := cs.dropWhile Char.isDigit
  let fracPart := match rest1 with
    | '.' :: t => t.takeWhile Char.isDigit
    | _ => []
  let rest2 := match rest1 with
    | '.' :: t => t.dropWhile Char.isDigit
    | _ => rest1
  if intPart.isEmpty ∧ fracPart.isEmpty then none
  else
    let mant : ℚ := (natOfDigits (intPart ++ fracPart) : ℚ) / ((10 : ℚ) ^ fracPart.length)
    match rest2 with
    | [] => some mant
    | e :: t =>
      if e = 'e' ∨ e = 'E' then
        let neg := match t with
          | '-' :: _ => true
          | _ => false
        let t2 := match t with
          | '-' :: t2 => t2
          | '+' :: t2 => t2
          | _ => t
        let expDigits := t2.takeWhile Char.isDigit
        let rest3 := t2.dropWhile Char.isDigit
        if expDigits.isEmpty ∨ ¬ rest3.isEmpty then none
        else
          let ex := natOfDigits expDigits
          some (if neg then mant / (10 : ℚ) ^ ex else mant * (10 : ℚ) ^ ex)
      else none

/-- Signed decimal or `Infinity` literal of string-to-number coercion. -/
def signedDecimal (cs : List Char) : JsNum :=
  let neg := match cs with
    | '-' :: _ => true
    | _ => false
  let body := match cs with
    | '-' :: t => t
    | '+' :: t => t
    | _ => cs
  if body = "Infinity".data then (if neg then JsNum.negInf else JsNum.posInf)
  else match parseDecimal body with
    | some q => JsNum.fin (if neg then -q else q)
    | none => JsNum.nan

/-- JavaScript string-to-number coercion (`Number(s)`): trimmed empty
string is `0`, radix-prefixed literals are unsigned, otherwise a signed
decimal or `Infinity` literal; anything else is `NaN`. -/
def strToNumber (s : String) : JsNum :=
  let cs := ((s.data.dropWhile jsWhitespace).reverse.dropWhile jsWhitespace).reverse
  match cs with
  | [] => JsNum.fin 0
  | '0' :: c :: rest =>
    if (c = 'x' ∨ c = 'X') ∧ (¬ rest.isEmpty) ∧ rest.all (isRadixDigit 16) then
      JsNum.fin ((natOfRadix 16 rest : ℕ) : ℚ)
    else if (c = 'o' ∨ c = 'O') ∧ (¬ rest.isEmpty) ∧ rest.all (isRadixDigit 8) then
      JsNum.fin ((natOfRadix 8 rest : ℕ) : ℚ)
    else if (c = 'b' ∨ c = 'B') ∧ (¬ rest.isEmpty) ∧ rest.all (isRadixDigit 2) then
      JsNum.fin ((natOfRadix 2 rest : ℕ) : ℚ)
    else signedDecimal cs
  | _ => signedDecimal cs

/-- JavaScript number coercion of a parsed JSON value, as applied by the
arithmetic in `convertCurrency` to the rate table entries.  (Array
coercion is modelled for the empty and singleton-number cases; other
arrays contain a comma or a non-numeric element form and coerce to `NaN`
except for exotic nestings that do not arise from rate payloads.) -/
def toNumber : Json → JsNum
  | .num q => .fin q
  | .str s => strToNumber s
  | .bool b => .fin (if b then 1 else 0)
  | .null => .fin 0
  | .arr [] => .fin 0
  | .arr [Json.num q] => .fin q
  | .arr _ => .nan
  | .obj _ => .nan

/-- `normalizeRates` from `helperFunctions.js` / `idb.js`: copies the rates
object (object spread) and ensures EUR/EURO equivalence — if exactly one of
the two alias keys is present, the other is added with the same value. -/
def normalizeRates (rates : Json) : Json :=
  -- Create copy to avoid mutating original rates object
  let normalized := jsonSpread rates
  -- if (normalized.EURO !== undefined && normalized.EUR === undefined)
  let n1 :=
    match lookupField normalized "EURO", lookupField normalized "EUR" with
    | some v, none => normalized ++ [("EUR", v)]
    | _, _ => normalized
  -- if (normalized.EUR !== undefined && normalized.EURO === undefined)
  let n2 :=
    match lookupField n1 "EUR", lookupField n1 "EURO" with
    | some v, none => n1 ++ [("EURO", v)]
    | _, _ => n1
  Json.obj n2

/-- `convertCurrency(amount, fromCurrency, toCurrency, rates)`: identity on
equal codes; `0` when `typeof amount !== 'number' || isNaN(amount)`; the
original amount when either rate is `undefined` after normalization; and
otherwise the base-currency pivot `amount / fromRate * toRate`. -/
def convertCurrency (amount : JsVal) (fromCurrency toCurrency : String) (rates : Json) : JsVal :=
  -- Skip conversion if currencies are the same
  if fromCurrency = toCurrency then amount
  else
    match amount with
    -- typeof amount !== 'number' (short-circuits before isNaN)
    | none => some (JsNum.fin 0)
    -- isNaN(amount)
    | some JsNum.nan => some (JsNum.fin 0)
    | some n =>
      -- Apply EUR/EURO normalization for API compatibility
      let normalizedRates := normalizeRates rates
      match jsonLookup normalizedRates fromCurrency, jsonLookup normalizedRates toCurrency with
      | some fromRate, some toRate =>
        -- Convert via USD (base currency) then to target currency
        some (jsMul (jsDiv n (toNumber fromRate)) (toNumber toRate))
      -- Handle missing exchange rates gracefully: return original amount
      | _, _ => some n

/-- The local-time decomposition of a JavaScript `Date`: the values of
`getFullYear()`, `getMonth()` (zero-based, hence `Fin 12`) and `getDate()`
(day of month). -/
structure JsDate where
  year : Int
  month : Fin 12
  day : Int
deriving DecidableEq, Repr

/-- A record of the `costs` object store: the four caller-supplied fields
plus the `date` stamped by `addCost`. -/
structure StoredCost where
  sum : JsNum
  currency : String
  category : String
  description : String
  date : JsDate
deriving DecidableEq, Repr

/-- The argument object of `addCost`.  A caller may also attach a `date`
property; `addCost` never reads it. -/
structure CostDraft where
  sum : JsNum
  currency : String
  category : String
  description : String
  date : Option JsDate
deriving DecidableEq, Repr

/-- The `costs` object store: records keyed by the auto-increment key
generator (`nextKey` is the next key the store will assign). -/
structure Store where
  costs : List (Nat × StoredCost)
  nextKey : Nat
deriving DecidableEq, Repr

/-- `addCost(cost)`: builds `costWithDate` from the four caller fields and
the current clock (`new Date()`), persists it under a fresh auto-increment
key, and resolves with `costWithDate`. -/
def addCost (store : Store) (now : JsDate) (cost : CostDraft) : Store × StoredCost :=
  -- Add current timestamp to cost object
  let costWithDate : StoredCost :=
    { sum := cost.sum, currency := cost.currency, category := cost.category
    , description := cost.description, date := now }
  -- store.add(costWithDate) under the next auto-increment key; resolve(costWithDate)
  ({ costs := store.costs ++ [(store.nextKey, costWithDate)], nextKey := store.nextKey + 1 },
   costWithDate)

/-- `getCostsByMonth(month, year)`: filters all costs by
`getMonth() === month && getFullYear() === year` (zero-based month). -/
def getCostsByMonth (records : List StoredCost) (month year : Int) : List StoredCost :=
  records.filter (fun cost => ((cost.date.month : Int) == month) && (cost.date.year == year))

/-- Error kinds thrown by `fetchAndConvertWithUrl`. -/
inductive JsError where
  | fetchError (status : Nat)
  | formatError
deriving DecidableEq, Repr

/-- An HTTP response as `fetchAndConvertWithUrl` observes it: `ok`,
`status`, and the `response.json()` payload.  (A body that is not valid
JSON would raise a JSON parse error upstream of the format check and is
not modelled.) -/
structure HttpResponse where
  ok : Bool
  status : Nat
  body : Json

/-- The external world of a report request: the `settings` store contents
and the network transport. -/
structure Env where
  settings : List (String × String)
  response : String → HttpResponse

/-- Association-list lookup in the settings store. -/
def lookupSetting : List (String × String) → String → Option String
  | [], _ => none
  | (k, v) :: rest, key => if k = key then some v else lookupSetting rest key

/-- The built-in default exchange-rate address. -/
def DEFAULT_EXCHANGE_URL : String :=
  "https://shaidahari.github.io/exchaneRates_json/exchange-rates.json"

/-- `getExchangeRatesUrl()`: the stored override if present and truthy
(`customUrl || DEFAULT_EXCHANGE_URL`), else the default address.  A failed
settings read also falls back to the default and is not modelled
separately. -/
def getExchangeRatesUrl (env : Env) : String :=
  match lookupSetting env.settings "exchangeRateUrl" with
  | some customUrl => if customUrl = "" then DEFAULT_EXCHANGE_URL else customUrl
  | none => DEFAULT_EXCHANGE_URL

/-- A cost with the `convertedAmount` property added by
`fetchAndConvertWithUrl`. -/
structure ConvCost where
  cost : StoredCost
  convertedAmount : JsVal
deriving DecidableEq, Repr

/-- The payload validation of `fetchAndConvertWithUrl`:
`!rates || typeof rates !== 'object'` throws the format error. -/
def ratesValid (rates : Json) : Bool :=
  !(jsFalsy rates) && (jsTypeof rates == "object")

/-- `fetchAndConvertWithUrl(db, costs, currency)`: early return on an empty
cost list; otherwise one fetch of the resolved address, an error on a
non-success status, the format check, and the per-cost conversion.  The
second component instruments the network: the list of addresses fetched. -/
def fetchAndConvertWithUrl (env : Env) (costs : List StoredCost) (currency : String) :
    Except JsError (List ConvCost) × List String :=
  -- Early return for empty or invalid cost arrays
  if costs.isEmpty then (Except.ok [], [])
  else
    -- Retrieve exchange rate API URL from database settings
    let exchangeUrl := getExchangeRatesUrl env
    -- Fetch current exchange rates from configured API endpoint
    let response := env.response exchangeUrl
    -- Handle HTTP errors from exchange rate API
    if !response.ok then (Except.error (JsError.fetchError response.status), [exchangeUrl])
    else
      let rates := response.body
      -- Validate response format before processing
      if !(ratesValid rates) then (Except.error JsError.formatError, [exchangeUrl])
      else
        (Except.ok (costs.map (fun cost =>
          { cost := cost
          , convertedAmount := convertCurrency (some cost.sum) cost.currency currency rates })),
         [exchangeUrl])

/-- A line item of the monthly report: the four original fields plus
`date: { day: ... }`. -/
structure ReportCost where
  sum : JsNum
  currency : String
  category : String
  description : String
  day : Int
deriving DecidableEq, Repr

/-- The `total` object of the monthly report. -/
structure ReportTotal where
  currency : String
  total : JsNum
deriving DecidableEq, Repr

/-- The monthly report object. -/
structure Report where
  year : Int
  month : Int
  costs : List ReportCost
  total : ReportTotal
deriving DecidableEq, Repr

/-- The line-item projection of `getReport`: original fields plus the
day-of-month of the record's date. -/
def toReportCost (cost : StoredCost) : ReportCost :=
  { sum := cost.sum, currency := cost.currency, category := cost.category
  , description := cost.description, day := cost.date.day }

/-- The year/month filter duplicated verbatim in `getReport` and
`getPieChartData`: `getFullYear() === year && getMonth() + 1 === month`
(one-based month argument). -/
def monthFilter (records : List StoredCost) (year month : Int) : List StoredCost :=
  records.filter (fun cost => (cost.date.year == year) && ((cost.date.month : Int) + 1 == month))

/-- The year filter of `getBarChartData`. -/
def yearFilter (records : List StoredCost) (year : Int) : List StoredCost :=
  records.filter (fun cost => cost.date.year == year)

/-- `getReport(year, month, currency)`: filter, project the line items,
convert via `fetchAndConvertWithUrl`, reduce the converted amounts, and
round the total to two decimals. -/
def getReport (env : Env) (records : List StoredCost) (year month : Int) (currency : String) :
    Except JsError Report × List String :=
  let filteredCosts := monthFilter records year month
  let reportCosts := filteredCosts.map toReportCost
  match fetchAndConvertWithUrl env filteredCosts currency with
  | (Except.error e, urls) => (Except.error e, urls)
  | (Except.ok costsWithConverted, urls) =>
    -- total = costsWithConverted.reduce((sum, cost) => sum + cost.convertedAmount, 0)
    let total := costsWithConverted.foldl
      (fun s cost => jsAdd s (jsValNum cost.convertedAmount)) (JsNum.fin 0)
    (Except.ok { year := year, month := month, costs := reportCosts
               , total := { currency := currency, total := jsRound2 total } }, urls)

/-- An entry of the pie-chart data. -/
structure PieEntry where
  category : String
  amount : JsNum
  currency : String
deriving DecidableEq, Repr

/-- Falsiness of a JavaScript number (the `!categoryTotals[...]` check). -/
def jsFalsyNum (n : JsNum) : Bool := n == JsNum.fin 0 || n == JsNum.nan

/-- In-place update of the first binding of a string key, appending when
the key is absent (JavaScript property assignment on a plain object,
insertion order preserved). -/
def setCategory : List (String × JsNum) → String → JsNum → List (String × JsNum)
  | [], k, v => [(k, v)]
  | (k0, v0) :: rest, k, v =>
    if k0 = k then (k0, v) :: rest else (k0, v0) :: setCategory rest k v

/-- Lookup in the category-totals accumulator. -/
def lookupCategory : List (String × JsNum) → String → Option JsNum
  | [], _ => none
  | (k0, v0) :: rest, k => if k0 = k then some v0 else lookupCategory rest k

/-- One step of the `categoryTotals` accumulation of `getPieChartData`:
`if (!categoryTotals[cat]) categoryTotals[cat] = 0;`
`categoryTotals[cat] += cost.convertedAmount;`. -/
def pieStep (totals : List (String × JsNum)) (cost : ConvCost) : List (String × JsNum) :=
  let base := match lookupCategory totals cost.cost.category with
    | some v => if jsFalsyNum v then JsNum.fin 0 else v
    | none => JsNum.fin 0
  setCategory totals cost.cost.category (jsAdd base (jsValNum cost.convertedAmount))

/-- `getPieChartData(year, month, currency)`: filter, convert, group by
category (insertion order of first occurrence, matching `Object.keys` for
the non-index category keys), and round each group total. -/
def getPieChartData (env : Env) (records : List StoredCost) (year month : Int)
    (currency : String) : Except JsError (List PieEntry) × List String :=
  let filteredCosts := monthFilter records year month
  match fetchAndConvertWithUrl env filteredCosts currency with
  | (Except.error e, urls) => (Except.error e, urls)
  | (Except.ok costsWithConverted, urls) =>
    let categoryTotals := costsWithConverted.foldl pieStep []
    let pieData := categoryTotals.map (fun p =>
      { category := p.fst, amount := jsRound2 p.snd, currency := currency })
    (Except.ok pieData, urls)

/-- An entry of the bar-chart data. -/
structure BarEntry where
  month : Int
  amount : JsNum
  currency : String
deriving DecidableEq, Repr

/-- `getBarChartData(year, currency)`: filter by year, convert, sum into
the twelve pre-initialized month buckets, and emit one entry per month
1..12.  The `monthlyTotals` object is modelled as a function on its keys;
its key set stays exactly 1..12 (in ascending order, as `Object.keys`
returns integer-like keys) because `getMonth() + 1` always lies in that
range. -/
def getBarChartData (env : Env) (records : List StoredCost) (year : Int) (currency : String) :
    Except JsError (List BarEntry) × List String :=
  let filteredCosts := yearFilter records year
  match fetchAndConvertWithUrl env filteredCosts currency with
  | (Except.error e, urls) => (Except.error e, urls)
  | (Except.ok costsWithConverted, urls) =>
    -- for (let month = 1; month <= 12; month++) monthlyTotals[month] = 0;
    let init : Int → JsNum := fun _ => JsNum.fin 0
    -- monthlyTotals[costMonth] += cost.convertedAmount;
    let monthlyTotals := costsWithConverted.foldl
      (fun totals cost =>
        Function.update totals ((cost.cost.date.month : Int) + 1)
          (jsAdd (totals ((cost.cost.date.month : Int) + 1)) (jsValNum cost.convertedAmount)))
      init
    let barData := (List.range 12).map (fun i =>
      { month := (i : Int) + 1, amount := jsRound2 (monthlyTotals ((i : Int) + 1))
      , currency := currency })
    (Except.ok barData, urls)

/-! ### Helper lemmas -/

/-- Lookup in an appended field list when the key occurs on the left. -/
theorem lookupField_append_some {l1 : List (String × Json)} {k : String} {v : Json}
    (l2 : List (String × Json)) (h : lookupField l1 k = some v) :
    lookupField (l1 ++ l2) k = some v := by
  induction l1 with
  | nil => simp [lookupField] at h
  | cons p rest ih =>
    by_cases hk : p.fst = k
    · simpa [lookupField, hk] using h
    · simp only [lookupField, hk, if_neg, List.cons_append] at h ⊢
      simp only [hk, if_false]
      exact ih h

/-- Lookup in an appended field list when the key is absent on the left. -/
theorem lookupField_append_none {l1 : List (String × Json)} {k : String}
    (l2 : List (String × Json)) (h : lookupField l1 k = none) :
    lookupField (l1 ++ l2) k = lookupField l2 k := by
  induction l1 with
  | nil => rfl
  | cons p rest ih =>
    by_cases hk : p.fst = k
    · simp [lookupField, hk] at h
    · simp only [lookupField, hk, if_false] at h ⊢
      exact ih h

/-- `convertCurrency` maps a numeric amount to a numeric result. -/
theorem convertCurrency_isSome (n : JsNum) (f t : String) (rates : Json) :
    ∃ m, convertCurrency (some n) f t rates = some m := by
  by_cases hft : f = t
  · exact ⟨n, by simp [convertCurrency, hft]⟩
  · cases n <;>
      simp only [convertCurrency, hft, if_false] <;>
      (try exact ⟨JsNum.fin 0, rfl⟩) <;>
      rcases jsonLookup (normalizeRates rates) f with _ | fr <;>
      rcases jsonLookup (normalizeRates rates) t with _ | tr <;>
      exact ⟨_, rfl⟩

/-- A non-`NaN` numeric amount survives `convertCurrency` unchanged when
either rate is missing after normalization (this also covers the
same-currency branch, which performs no lookup at all). -/
theorem convert_missing {n : JsNum} {f t : String} {rates : Json}
    (hn : n ≠ JsNum.nan)
    (h : f = t ∨ jsonLookup (normalizeRates rates) f = none
       ∨ jsonLookup (normalizeRates rates) t = none) :
    convertCurrency (some n) f t rates = some n := by
  by_cases hft : f = t
  · simp [convertCurrency, hft]
  · rcases h with h | h | h
    · exact absurd h hft
    · cases n <;> simp_all [convertCurrency, h]
    · cases n <;>
        rcases hf2 : jsonLookup (normalizeRates rates) f with _ | fr <;>
        simp_all [convertCurrency]

/-- Unfolding of `fetchAndConvertWithUrl` under a successful, valid
response: it converts each cost against the fetched body, fetching exactly
once unless the cost list is empty. -/
theorem fetchAndConvert_ok (env : Env) (costs : List StoredCost) (currency : String)
    (hok : (env.response (getExchangeRatesUrl env)).ok = true)
    (hval : ratesValid (env.response (getExchangeRatesUrl env)).body = true) :
    fetchAndConvertWithUrl env costs currency
      = (Except.ok (costs.map (fun cost =>
          { cost := cost
          , convertedAmount := convertCurrency (some cost.sum) cost.currency currency
              (env.response (getExchangeRatesUrl env)).body })),
         if costs.isEmpty then [] else [getExchangeRatesUrl env]) := by
  by_cases h : costs.isEmpty
  · have h0 : costs = [] := List.isEmpty_iff.mp h
    subst h0
    rfl
  · have h2 : costs.isEmpty = false := by simpa using h
    simp [fetchAndConvertWithUrl, h2, hok, hval]

/-- Congruence for the converted-amount reduction. -/
theorem foldl_jsAdd_congr {l : List StoredCost} {g g' : StoredCost → JsNum} (a : JsNum)
    (h : ∀ c ∈ l, g c = g' c) :
    l.foldl (fun s c => jsAdd s (g c)) a = l.foldl (fun s c => jsAdd s (g' c)) a := by
  induction l generalizing a with
  | nil => rfl
  | cons x xs ih =>
    simp only [List.foldl_cons]
    rw [h x (by simp)]
    exact ih _ (fun c hc => h c (by simp [hc]))

/-- Evaluating the `monthlyTotals` accumulation of `getBarChartData` at one
key: only the costs of that month contribute. -/
theorem foldl_update_apply (cs : List ConvCost) (f : Int → JsNum) (m : Int) :
    (cs.foldl (fun totals cost =>
        Function.update totals ((cost.cost.date.month : Int) + 1)
          (jsAdd (totals ((cost.cost.date.month : Int) + 1)) (jsValNum cost.convertedAmount))) f) m
      = cs.foldl (fun s cost =>
          if ((cost.cost.date.month : Int) + 1) = m then jsAdd s (jsValNum cost.convertedAmount)
          else s) (f m) := by
  induction cs generalizing f with
  | nil => rfl
  | cons c cs ih =>
    simp only [List.foldl_cons]
    rw [ih]
    by_cases h : ((c.cost.date.month : Int) + 1) = m
    · rw [if_pos h, h, Function.update_same]
    · rw [if_neg h, Function.update_noteq (fun hmk => h hmk.symm)]

/-- A guarded reduction over a list none of whose elements satisfy the
guard is the identity. -/
theorem foldl_if_false {α : Type} {l : List α} {p : α → Prop} [DecidablePred p]
    {g : α → JsNum} (a : JsNum) (h : ∀ c ∈ l, ¬ p c) :
    l.foldl (fun s c => if p c then jsAdd s (g c) else s) a = a := by
  induction l generalizing a with
  | nil => rfl
  | cons x xs ih =>
    simp only [List.foldl_cons, if_neg (h x (by simp))]
    exact ih _ (fun c hc => h c (by simp [hc]))

/-- The two-decimal rounding idiom on a finite value, spelled out:
half-up at the second decimal. -/
theorem jsRound2_fin (q : ℚ) :
    jsRound2 (JsNum.fin q) = JsNum.fin (((⌊q * 100 + 1/2⌋ : ℤ) : ℚ) / 100) := by
  have h100 : (100 : ℚ) ≠ 0 := by norm_num
  simp [jsRound2, jsMul, jsRound, jsDiv, h100]

/-- Rounding a zero total yields zero. -/
theorem jsRound2_zero : jsRound2 (JsNum.fin 0) = JsNum.fin 0 := by
  rw [jsRound2_fin]
  norm_num

/-- Unfolding of `getReport` under a successful, valid response: line items
are the projected filtered records and the total reduces the per-record
conversions. -/
theorem getReport_run (env : Env) (records : List StoredCost) (year month : Int)
    (currency : String)
    (hok : (env.response (getExchangeRatesUrl env)).ok = true)
    (hval : ratesValid (env.response (getExchangeRatesUrl env)).body = true) :
    getReport env records year month currency
      = (Except.ok
          { year := year, month := month
          , costs := (monthFilter records year month).map toReportCost
          , total :=
            { currency := currency
            , total := jsRound2 ((monthFilter records year month).foldl
                (fun s c => jsAdd s (jsValNum (convertCurrency (some c.sum) c.currency currency
                  (env.response (getExchangeRatesUrl env)).body))) (JsNum.fin 0)) } }
        , if (monthFilter records year month).isEmpty then []
          else [getExchangeRatesUrl env]) := by
  simp only [getReport, fetchAndConvert_ok env _ currency hok hval, List.foldl_map]

/-! ### Claim theorems -/

/-- Claim C1 (amended): `addCost` persists a record whose `date` is the
store clock at write (any caller-supplied date is ignored) and whose other
four fields are the caller's values verbatim, under a fresh auto-increment
key; it resolves with the stored payload, which carries the stamped date
but not the assigned id. -/
theorem addCost_stamps_and_persists (store : Store) (now : JsDate) (draft : CostDraft) :
    (addCost store now draft).1.costs
      = store.costs ++ [(store.nextKey,
          { sum := draft.sum, currency := draft.currency, category := draft.category
          , description := draft.description, date := now })]
  ∧ (addCost store now draft).1.nextKey = store.nextKey + 1
  ∧ (addCost store now draft).2
      = { sum := draft.sum, currency := draft.currency, category := draft.category
        , description := draft.description, date := now }
  ∧ ((∀ k ∈ store.costs.map Prod.fst, k < store.nextKey) →
      store.nextKey ∉ store.costs.map Prod.fst) :=
  ⟨rfl, rfl, rfl, fun h hmem => absurd (h _ hmem) (lt_irrefl _)⟩

/-- Witness for C1 at a concrete store, clock and draft (the draft carries
a date, which is ignored). -/
theorem addCost_stamps_and_persists_witness :
    (addCost ⟨[], 0⟩ ⟨2025, 8, 12⟩
        ⟨JsNum.fin 200, "USD", "FOOD", "pizza", some ⟨1999, 0, 1⟩⟩).2
      = ⟨JsNum.fin 200, "USD", "FOOD", "pizza", ⟨2025, 8, 12⟩⟩
  ∧ (0 : Nat) ∉ (([] : List (Nat × StoredCost)).map Prod.fst) := by
  have h := addCost_stamps_and_persists ⟨[], 0⟩ ⟨2025, 8, 12⟩
    ⟨JsNum.fin 200, "USD", "FOOD", "pizza", some ⟨1999, 0, 1⟩⟩
  exact ⟨h.2.2.1, h.2.2.2 (by simp)⟩

/-- Counterexample to C1 as stated: the value `addCost` resolves with does
not include the newly assigned id — two stores about to assign different
keys produce identical return values while persisting under different
keys. -/
theorem addCost_result_lacks_id :
    (addCost ⟨[], 5⟩ ⟨2025, 8, 12⟩ ⟨JsNum.fin 200, "USD", "FOOD", "pizza", none⟩).2
      = (addCost ⟨[], 99⟩ ⟨2025, 8, 12⟩ ⟨JsNum.fin 200, "USD", "FOOD", "pizza", none⟩).2
  ∧ (addCost ⟨[], 5⟩ ⟨2025, 8, 12⟩ ⟨JsNum.fin 200, "USD", "FOOD", "pizza", none⟩).1.costs.map
        Prod.fst
      ≠ (addCost ⟨[], 99⟩ ⟨2025, 8, 12⟩ ⟨JsNum.fin 200, "USD", "FOOD", "pizza", none⟩).1.costs.map
        Prod.fst :=
  ⟨rfl, by decide⟩

/-- Claim C2 (amended): for distinct codes, `convertCurrency` returns `0`
when the amount is `NaN` or not a number at all (the `typeof`/`isNaN`
guard); it never throws. -/
theorem convertCurrency_guard_zero (amount : JsVal) (f t : String) (rates : Json)
    (hft : f ≠ t) (h : amount = none ∨ amount = some JsNum.nan) :
    convertCurrency amount f t rates = some (JsNum.fin 0) := by
  rcases h with h | h <;> subst h <;> simp [convertCurrency, hft]

/-- Witness for C2 at a concrete `NaN` amount. -/
theorem convertCurrency_guard_zero_witness :
    convertCurrency (some JsNum.nan) "USD" "GBP" Json.null = some (JsNum.fin 0) :=
  convertCurrency_guard_zero _ "USD" "GBP" Json.null (by decide) (Or.inr rfl)

/-- Counterexample to C2 as stated: `+Infinity` is a number and is not
`NaN`, so it passes the guard — here the target rate is missing, and the
infinite amount is returned unchanged instead of `0`; with both rates
present it would propagate through the pivot arithmetic instead. -/
theorem convertCurrency_infinity_passes_guard :
    convertCurrency (some JsNum.posInf) "USD" "GBP" (Json.obj [("USD", Json.num 1)])
      = some JsNum.posInf
  ∧ some JsNum.posInf ≠ some (JsNum.fin 0) :=
  ⟨by rfl, by decide⟩

/-- Claim C3 (amended): on a non-empty cost list, `fetchAndConvertWithUrl`
retrieves the resolved address exactly once, throws the fetch error on a
non-success status, and throws the format error exactly when the parsed
payload is falsy or not of `typeof` `'object'` — arrays and objects with
non-numeric values pass validation. -/
theorem fetchAndConvert_fetch_behavior (env : Env) (costs : List StoredCost)
    (currency : String) (hne : costs ≠ []) :
    ((fetchAndConvertWithUrl env costs currency).2 = [getExchangeRatesUrl env])
  ∧ ((env.response (getExchangeRatesUrl env)).ok = false →
      (fetchAndConvertWithUrl env costs currency).1
        = Except.error (JsError.fetchError (env.response (getExchangeRatesUrl env)).status))
  ∧ ((env.response (getExchangeRatesUrl env)).ok = true →
      ((fetchAndConvertWithUrl env costs currency).1 = Except.error JsError.formatError
        ↔ ratesValid (env.response (getExchangeRatesUrl env)).body = false)) := by
  have hne2 : costs.isEmpty = false := by simpa using hne
  refine ⟨?_, ?_, ?_⟩
  · by_cases hok : (env.response (getExchangeRatesUrl env)).ok
    · by_cases hv : ratesValid (env.response (getExchangeRatesUrl env)).body <;>
        simp [fetchAndConvertWithUrl, hne2, hok, hv]
    · have hok2 : (env.response (getExchangeRatesUrl env)).ok = false := by simpa using hok
      simp [fetchAndConvertWithUrl, hne2, hok2]
  · intro hok
    simp [fetchAndConvertWithUrl, hne2, hok]
  · intro hok
    by_cases hv : ratesValid (env.response (getExchangeRatesUrl env)).body <;>
      simp [fetchAndConvertWithUrl, hne2, hok, hv]

/-- Witness for C3: a concrete singleton cost list fetches exactly the
resolved (default) address once. -/
theorem fetchAndConvert_fetch_behavior_witness :
    (fetchAndConvertWithUrl ⟨[], fun _ => ⟨true, 200, Json.obj [("USD", Json.num 1)]⟩⟩
        [⟨JsNum.fin 5, "USD", "A", "d", ⟨2025, 0, 1⟩⟩] "USD").2
      = [getExchangeRatesUrl ⟨[], fun _ => ⟨true, 200, Json.obj [("USD", Json.num 1)]⟩⟩] :=
  (fetchAndConvert_fetch_behavior _ _ _ (by simp)).1

/-- Counterexample to C3 as stated: an array payload and a mapping with a
non-numeric value both pass the format check and are used — the array
yields unconverted amounts (no rate found), and the boolean rate coerces
to `1` in the pivot arithmetic. -/
theorem fetch_format_check_permissive :
    (fetchAndConvertWithUrl ⟨[], fun _ => ⟨true, 200, Json.arr []⟩⟩
        [⟨JsNum.fin 5, "ILS", "A", "d", ⟨2025, 0, 1⟩⟩] "USD").1
      = Except.ok [⟨⟨JsNum.fin 5, "ILS", "A", "d", ⟨2025, 0, 1⟩⟩, some (JsNum.fin 5)⟩]
  ∧ (fetchAndConvertWithUrl
        ⟨[], fun _ => ⟨true, 200, Json.obj [("EUR", Json.bool true), ("USD", Json.num 2)]⟩⟩
        [⟨JsNum.fin 5, "EUR", "A", "d", ⟨2025, 0, 1⟩⟩] "USD").1
      = Except.ok [⟨⟨JsNum.fin 5, "EUR", "A", "d", ⟨2025, 0, 1⟩⟩, some (JsNum.fin (5 / 1 * 2))⟩] :=
  ⟨by rfl, by rfl⟩

/-- Claim C4: under a successful, valid rate response, `getReport` returns
`{year, month, costs, total}` where `costs` are exactly the records of the
requested local-time year and one-based month, projected to their original
four fields plus the day-of-month only (`toReportCost` — no converted
amount and no full timestamp), and `total.total` reduces the per-record
conversions to the target currency, rounded to two decimals half-up (the
second conjunct spells the rounding out). -/
theorem getReport_monthly_spec (env : Env) (records : List StoredCost) (year month : Int)
    (currency : String)
    (hok : (env.response (getExchangeRatesUrl env)).ok = true)
    (hval : ratesValid (env.response (getExchangeRatesUrl env)).body = true) :
    (getReport env records year month currency
      = (Except.ok
          { year := year, month := month
          , costs := (monthFilter records year month).map toReportCost
          , total :=
            { currency := currency
            , total := jsRound2 ((monthFilter records year month).foldl
                (fun s c => jsAdd s (jsValNum (convertCurrency (some c.sum) c.currency currency
                  (env.response (getExchangeRatesUrl env)).body))) (JsNum.fin 0)) } }
        , if (monthFilter records year month).isEmpty then []
          else [getExchangeRatesUrl env]))
  ∧ (∀ q : ℚ, jsRound2 (JsNum.fin q) = JsNum.fin (((⌊q * 100 + 1/2⌋ : ℤ) : ℚ) / 100)) :=
  ⟨getReport_run env records year month currency hok hval, jsRound2_fin⟩

/-- Witness for C4: one September 2025 record in the target currency. -/
theorem getReport_monthly_spec_witness :
    getReport { settings := []
              , response := fun _ => ⟨true, 200, Json.obj [("USD", Json.num 1)]⟩ }
        [⟨JsNum.fin 200, "USD", "FOOD", "Milk", ⟨2025, 8, 12⟩⟩] 2025 9 "USD"
      = (Except.ok { year := 2025, month := 9
                   , costs := [⟨JsNum.fin 200, "USD", "FOOD", "Milk", 12⟩]
                   , total := { currency := "USD", total := jsRound2 (JsNum.fin (0 + 200)) } }
        , [DEFAULT_EXCHANGE_URL]) :=
  (getReport_monthly_spec
    { settings := [], response := fun _ => ⟨true, 200, Json.obj [("USD", Json.num 1)]⟩ }
    [⟨JsNum.fin 200, "USD", "FOOD", "Milk", ⟨2025, 8, 12⟩⟩] 2025 9 "USD" rfl rfl).1

/-- Claim C5: with both codes carrying a rate after normalization and a
nonzero source rate, `convertCurrency` computes the base-currency pivot
`amount / fromRate * toRate` exactly. -/
theorem convertCurrency_pivot (q fr tr : ℚ) (f t : String) (rates : Json)
    (hft : f ≠ t)
    (hf : jsonLookup (normalizeRates rates) f = some (Json.num fr))
    (ht : jsonLookup (normalizeRates rates) t = some (Json.num tr))
    (hfr : fr ≠ 0) :
    convertCurrency (some (JsNum.fin q)) f t rates = some (JsNum.fin (q / fr * tr)) := by
  simp [convertCurrency, hft, hf, ht, toNumber, jsDiv, jsMul, hfr]

/-- Witness for C5: 120 GBP to USD through integer rates. -/
theorem convertCurrency_pivot_witness :
    convertCurrency (some (JsNum.fin 120)) "GBP" "USD"
        (Json.obj [("USD", Json.num 1), ("GBP", Json.num 2)])
      = some (JsNum.fin (120 / 2 * 1)) :=
  convertCurrency_pivot 120 2 1 "GBP" "USD" _ (by decide) rfl rfl (by decide)

/-- Claim C6: a finite (non-`NaN`) amount survives `convertCurrency`
unchanged when either code lacks a rate after normalization; consequently
a monthly report whose target currency is absent from the fetched table
totals the unconverted amounts instead of failing. -/
theorem convertCurrency_missing_rate_degrades :
    (∀ (n : JsNum) (f t : String) (rates : Json),
       f ≠ t → n ≠ JsNum.nan →
       (jsonLookup (normalizeRates rates) f = none
          ∨ jsonLookup (normalizeRates rates) t = none) →
       convertCurrency (some n) f t rates = some n)
  ∧ (∀ (env : Env) (records : List StoredCost) (year month : Int) (currency : String),
       (env.response (getExchangeRatesUrl env)).ok = true →
       ratesValid (env.response (getExchangeRatesUrl env)).body = true →
       jsonLookup (normalizeRates (env.response (getExchangeRatesUrl env)).body) currency
         = none →
       (∀ c ∈ records, c.sum ≠ JsNum.nan) →
       ∃ r, (getReport env records year month currency).1 = Except.ok r
          ∧ r.total.total = jsRound2 ((monthFilter records year month).foldl
              (fun s c => jsAdd s c.sum) (JsNum.fin 0))) := by
  constructor
  · intro n f t rates _ hn h
    exact convert_missing hn (Or.inr h)
  · intro env records year month currency hok hval hmiss hsum
    have hrun := getReport_run env records year month currency hok hval
    have heq : (monthFilter records year month).foldl
        (fun s c => jsAdd s (jsValNum (convertCurrency (some c.sum) c.currency currency
          (env.response (getExchangeRatesUrl env)).body))) (JsNum.fin 0)
      = (monthFilter records year month).foldl (fun s c => jsAdd s c.sum) (JsNum.fin 0) := by
      apply foldl_jsAdd_congr
      intro c hc
      have hcr : c ∈ records := by
        simp only [monthFilter, List.mem_filter] at hc
        exact hc.1
      rw [convert_missing (hsum c hcr) (Or.inr (Or.inr hmiss))]
      rfl
    have h1 : (getReport env records year month currency).1
        = Except.ok { year := year, month := month
                    , costs := (monthFilter records year month).map toReportCost
                    , total :=
                      { currency := currency
                      , total := jsRound2 ((monthFilter records year month).foldl
                          (fun s c => jsAdd s (jsValNum (convertCurrency (some c.sum) c.currency
                            currency (env.response (getExchangeRatesUrl env)).body)))
                          (JsNum.fin 0)) } } := by
      rw [hrun]
    rw [heq] at h1
    exact ⟨_, h1, rfl⟩

/-- Witness for C6: a missing source rate and a report whose target
currency (ILS) is absent from the fetched table. -/
theorem convertCurrency_missing_rate_degrades_witness :
    convertCurrency (some (JsNum.fin 5)) "ILS" "GBP" (Json.obj [("USD", Json.num 1)])
      = some (JsNum.fin 5)
  ∧ ∃ r, (getReport { settings := []
                    , response := fun _ => ⟨true, 200, Json.obj [("USD", Json.num 1)]⟩ }
        [⟨JsNum.fin 7, "GBP", "A", "x", ⟨2025, 4, 2⟩⟩] 2025 5 "ILS").1 = Except.ok r
      ∧ r.total.total = jsRound2 ((monthFilter [⟨JsNum.fin 7, "GBP", "A", "x", ⟨2025, 4, 2⟩⟩]
          2025 5).foldl (fun s c => jsAdd s c.sum) (JsNum.fin 0)) := by
  have h := convertCurrency_missing_rate_degrades
  exact ⟨h.1 (JsNum.fin 5) "ILS" "GBP" _ (by decide) (by decide) (Or.inl rfl),
         h.2 _ _ 2025 5 "ILS" rfl rfl rfl (by decide)⟩

/-- Claim C7: under a successful, valid rate response, `getBarChartData`
returns exactly twelve entries, one per month 1..12, each of shape
`{month, amount, currency}`; each amount is the two-decimal-rounded sum of
the converted amounts of that month's records in the requested year, and a
month with no matching records yields amount `0`. -/
theorem getBarChartData_twelve_months (env : Env) (records : List StoredCost) (year : Int)
    (currency : String)
    (hok : (env.response (getExchangeRatesUrl env)).ok = true)
    (hval : ratesValid (env.response (getExchangeRatesUrl env)).body = true) :
    ((getBarChartData env records year currency).1
      = Except.ok ((List.range 12).map (fun i =>
          { month := (i : Int) + 1
          , amount := jsRound2 ((yearFilter records year).foldl
              (fun s c => if ((c.date.month : Int) + 1) = (i : Int) + 1
                then jsAdd s (jsValNum (convertCurrency (some c.sum) c.currency currency
                  (env.response (getExchangeRatesUrl env)).body))
                else s) (JsNum.fin 0))
          , currency := currency })))
  ∧ (∀ l, (getBarChartData env records year currency).1 = Except.ok l → l.length = 12)
  ∧ (∀ i : Fin 12,
      records.filter (fun c => (c.date.year == year) && (c.date.month == i)) = [] →
      jsRound2 ((yearFilter records year).foldl
        (fun s c => if ((c.date.month : Int) + 1) = (i : Int) + 1
          then jsAdd s (jsValNum (convertCurrency (some c.sum) c.currency currency
            (env.response (getExchangeRatesUrl env)).body))
          else s) (JsNum.fin 0)) = JsNum.fin 0) := by
  have hfc := fetchAndConvert_ok env (yearFilter records year) currency hok hval
  have h1 : (getBarChartData env records year currency).1
      = Except.ok ((List.range 12).map (fun i =>
          { month := (i : Int) + 1
          , amount := jsRound2 ((yearFilter records year).foldl
              (fun s c => if ((c.date.month : Int) + 1) = (i : Int) + 1
                then jsAdd s (jsValNum (convertCurrency (some c.sum) c.currency currency
                  (env.response (getExchangeRatesUrl env)).body))
                else s) (JsNum.fin 0))
          , currency := currency })) := by
    simp only [getBarChartData, hfc]
    congr 1
    apply List.map_congr_left
    intro i _
    simp only [foldl_update_apply, List.foldl_map]
  refine ⟨h1, ?_, ?_⟩
  · intro l hl
    rw [h1] at hl
    cases hl
    simp
  · intro i hempty
    have hnone : ∀ c ∈ yearFilter records year,
        ¬ ((c.date.month : Int) + 1 = (i : Int) + 1) := by
      intro c hc hmonth
      simp only [yearFilter, List.mem_filter] at hc
      have hm : c.date.month = i := by
        have hv : (c.date.month : Int) = (i : Int) := by omega
        exact Fin.ext (by exact_mod_cast hv)
      have hmem : c ∈ records.filter
          (fun c => (c.date.year == year) && (c.date.month == i)) :=
        List.mem_filter.mpr ⟨hc.1, by simp [hc.2, hm]⟩
      rw [hempty] at hmem
      simp at hmem
    rw [foldl_if_false _ hnone, jsRound2_zero]

/-- Witness for C7: one March 2025 record, year 2025, target USD. -/
theorem getBarChartData_twelve_months_witness :
    (getBarChartData
        { settings := [], response := fun _ => ⟨true, 200, Json.obj [("USD", Json.num 1)]⟩ }
        [⟨JsNum.fin 10, "USD", "A", "d", ⟨2025, 2, 3⟩⟩] 2025 "USD").1
      = Except.ok ((List.range 12).map (fun i =>
          { month := (i : Int) + 1
          , amount := jsRound2 ((yearFilter [⟨JsNum.fin 10, "USD", "A", "d", ⟨2025, 2, 3⟩⟩]
              2025).foldl
              (fun s c => if ((c.date.month : Int) + 1) = (i : Int) + 1
                then jsAdd s (jsValNum (convertCurrency (some c.sum) c.currency "USD"
                  (Json.obj [("USD", Json.num 1)])))
                else s) (JsNum.fin 0))
          , currency := "USD" })) :=
  (getBarChartData_twelve_months
    { settings := [], response := fun _ => ⟨true, 200, Json.obj [("USD", Json.num 1)]⟩ }
    [⟨JsNum.fin 10, "USD", "A", "d", ⟨2025, 2, 3⟩⟩] 2025 "USD" rfl rfl).1

/-- Claim C8: a period with no matching records produces a zero-total
report and an empty category breakdown without any network retrieval (the
instrumented fetch list is empty). -/
theorem empty_period_no_fetch (env : Env) (records : List StoredCost) (year month : Int)
    (currency : String) (h : monthFilter records year month = []) :
    getReport env records year month currency
      = (Except.ok { year := year, month := month, costs := []
                   , total := { currency := currency, total := JsNum.fin 0 } }, [])
  ∧ getPieChartData env records year month currency = (Except.ok [], []) := by
  constructor
  · have h1 : getReport env records year month currency
        = (Except.ok { year := year, month := month, costs := []
                     , total := { currency := currency, total := jsRound2 (JsNum.fin 0) } },
           []) := by
      simp only [getReport, h]
      rfl
    rw [h1, jsRound2_zero]
  · simp only [getPieChartData, h]
    rfl

/-- Witness for C8: a store whose only record lies outside the requested
period, together with a transport that would fail if it were consulted. -/
theorem empty_period_no_fetch_witness :
    getReport { settings := [], response := fun _ => ⟨false, 500, Json.null⟩ }
        [⟨JsNum.fin 7, "USD", "A", "d", ⟨2024, 0, 1⟩⟩] 2025 5 "USD"
      = (Except.ok { year := 2025, month := 5, costs := []
                   , total := { currency := "USD", total := JsNum.fin 0 } }, [])
  ∧ getPieChartData { settings := [], response := fun _ => ⟨false, 500, Json.null⟩ }
        [⟨JsNum.fin 7, "USD", "A", "d", ⟨2024, 0, 1⟩⟩] 2025 5 "USD" = (Except.ok [], []) :=
  empty_period_no_fetch _ _ 2025 5 "USD" rfl

/-- Claim C9: `normalizeRates` adds the missing Euro alias with the
identical value when exactly one of `EUR`/`EURO` is present, leaves both
untouched (no reconciliation) when both are present, and returns the table
unchanged when neither is; it is pure, so the input is never mutated. -/
theorem normalizeRates_spec :
    (∀ (fields : List (String × Json)) (v : Json),
       lookupField fields "EURO" = some v → lookupField fields "EUR" = none →
       normalizeRates (Json.obj fields) = Json.obj (fields ++ [("EUR", v)]))
  ∧ (∀ (fields : List (String × Json)) (v : Json),
       lookupField fields "EUR" = some v → lookupField fields "EURO" = none →
       normalizeRates (Json.obj fields) = Json.obj (fields ++ [("EURO", v)]))
  ∧ (∀ (fields : List (String × Json)) (v w : Json),
       lookupField fields "EURO" = some v → lookupField fields "EUR" = some w →
       normalizeRates (Json.obj fields) = Json.obj fields)
  ∧ (∀ (fields : List (String × Json)),
       lookupField fields "EURO" = none → lookupField fields "EUR" = none →
       normalizeRates (Json.obj fields) = Json.obj fields) := by
  refine ⟨?_, ?_, ?_, ?_⟩
  · intro fields v h1 h2
    have ha : lookupField (fields ++ [("EUR", v)]) "EUR" = some v := by
      rw [lookupField_append_none _ h2]
      simp [lookupField]
    have hb : lookupField (fields ++ [("EUR", v)]) "EURO" = some v :=
      lookupField_append_some _ h1
    simp only [normalizeRates, jsonSpread, h1, h2, ha, hb]
  · intro fields v h1 h2
    simp only [normalizeRates, jsonSpread, h1, h2]
  · intro fields v w h1 h2
    simp only [normalizeRates, jsonSpread, h1, h2]
  · intro fields h1 h2
    simp only [normalizeRates, jsonSpread, h1, h2]

/-- Witness for C9: each alias configuration at a concrete table (the
both-present case uses two different values, which stay as given). -/
theorem normalizeRates_spec_witness :
    normalizeRates (Json.obj [("EURO", Json.num 7)])
      = Json.obj ([("EURO", Json.num 7)] ++ [("EUR", Json.num 7)])
  ∧ normalizeRates (Json.obj [("EUR", Json.num 7)])
      = Json.obj ([("EUR", Json.num 7)] ++ [("EURO", Json.num 7)])
  ∧ normalizeRates (Json.obj [("EURO", Json.num 7), ("EUR", Json.num 8)])
      = Json.obj [("EURO", Json.num 7), ("EUR", Json.num 8)]
  ∧ normalizeRates (Json.obj [("USD", Json.num 1)]) = Json.obj [("USD", Json.num 1)] := by
  have h := normalizeRates_spec
  exact ⟨h.1 _ _ rfl rfl, h.2.1 _ _ rfl rfl, h.2.2.1 _ _ _ rfl rfl, h.2.2.2 _ rfl rfl⟩

/-- Claim C10: `getCostsByMonth` matches the zero-based `getMonth()` value
against its month argument, while `getReport` (and `getPieChartData`, which
uses the same `monthFilter`) match `getMonth() + 1`; the same numeric
argument therefore selects adjacent calendar months: the records
`getCostsByMonth` selects with argument `m` are exactly the line items of
`getReport` called with month argument `m + 1`, and a June record (zero-based
month 5) is selected by `getCostsByMonth 5` but absent from `getReport`'s
month 5. -/
theorem month_indexing_mismatch :
    (∀ (env : Env) (records : List StoredCost) (m year : Int) (currency : String),
       (env.response (getExchangeRatesUrl env)).ok = true →
       ratesValid (env.response (getExchangeRatesUrl env)).body = true →
       ∃ r, (getReport env records year (m + 1) currency).1 = Except.ok r
          ∧ r.costs = (getCostsByMonth records m year).map toReportCost)
  ∧ getCostsByMonth [⟨JsNum.fin 7, "USD", "A", "x", ⟨2025, 5, 20⟩⟩] 5 2025
      = [⟨JsNum.fin 7, "USD", "A", "x", ⟨2025, 5, 20⟩⟩]
  ∧ Except.map (fun r => r.costs)
      (getReport ⟨[], fun _ => ⟨true, 200, Json.obj [("USD", Json.num 1)]⟩⟩
        [⟨JsNum.fin 7, "USD", "A", "x", ⟨2025, 5, 20⟩⟩] 2025 5 "USD").1
      = Except.ok ([] : List ReportCost)
  ∧ Except.map (fun r => r.costs)
      (getReport ⟨[], fun _ => ⟨true, 200, Json.obj [("USD", Json.num 1)]⟩⟩
        [⟨JsNum.fin 7, "USD", "A", "x", ⟨2025, 5, 20⟩⟩] 2025 6 "USD").1
      = Except.ok [toReportCost ⟨JsNum.fin 7, "USD", "A", "x", ⟨2025, 5, 20⟩⟩] := by
  refine ⟨?_, by rfl, by rfl, by rfl⟩
  intro env records m year currency hok hval
  have hrun := getReport_run env records year (m + 1) currency hok hval
  have hfil : monthFilter records year (m + 1) = getCostsByMonth records m year := by
    unfold monthFilter getCostsByMonth
    apply List.filter_congr
    intro c _
    rw [Bool.and_comm]
    congr 1
    cases hA : (((c.date.month : Int) + 1) == m + 1) <;>
      cases hB : ((c.date.month : Int) == m)
    · rfl
    · simp only [beq_eq_false_iff_ne] at hA
      simp only [beq_iff_eq] at hB
      omega
    · simp only [beq_iff_eq] at hA
      simp only [beq_eq_false_iff_ne] at hB
      omega
    · rfl
  refine ⟨_, by rw [hrun], ?_⟩
  rw [show ({ year := year, month := m + 1
            , costs := (monthFilter records year (m + 1)).map toReportCost
            , total :=
              { currency := currency
              , total := jsRound2 ((monthFilter records year (m + 1)).foldl
                  (fun s c => jsAdd s (jsValNum (convertCurrency (some c.sum) c.currency currency
                    (env.response (getExchangeRatesUrl env)).body))) (JsNum.fin 0)) } } :
          Report).costs
      = (monthFilter records year (m + 1)).map toReportCost from rfl, hfil]

/-- Witness for C10: with month argument `5 + 1`, `getReport`'s line items
are exactly the records `getCostsByMonth` selects with argument `5`. -/
theorem month_indexing_mismatch_witness :
    ∃ r, (getReport
        { settings := [], response := fun _ => ⟨true, 200, Json.obj [("USD", Json.num 1)]⟩ }
        [⟨JsNum.fin 7, "USD", "A", "x", ⟨2025, 5, 20⟩⟩] 2025 (5 + 1) "USD").1 = Except.ok r
      ∧ r.costs = (getCostsByMonth [⟨JsNum.fin 7, "USD", "A", "x", ⟨2025, 5, 20⟩⟩] 5 2025).map
          toReportCost :=
  month_indexing_mismatch.1
    { settings := [], response := fun _ => ⟨true, 200, Json.obj [("USD", Json.num 1)]⟩ }
    [⟨JsNum.fin 7, "USD", "A", "x", ⟨2025, 5, 20⟩⟩] 5 2025 "USD" rfl rfl

end CostManager
